import Mathlib

/-!
# Verification of the webcodecs-utils MP4 demuxer

Shallow embedding of the MP4 demuxer (`MP4Demuxer`, `parseMP4Metadata`,
`extractTrackData`, `extractCodecDescription`, `extractEncodedSegment`).

Modelling conventions:
* JavaScript `number` arithmetic on media times is modelled exactly over `ℚ`
  (the source computes `cts / timescale`, `Math.round`, `Math.min`, `Math.abs`
  on doubles; here these are exact rationals, `round`, `min`, `|·|`).
* The mp4box.js box-tree primitive is external to the repository.  Its
  observable behaviour is an oracle parameter:
  - during loading, `fires : Option Nat` says after how many appended chunks
    the `onReady` callback fires (`none` = it never fires);
  - during extraction, `batches : List (List MP4Sample)` is the sequence of
    `onSamples` callback invocations the primitive performs while bytes are
    appended (including any delivered by the final `flush`);
  - a codec-configuration sub-box (`avcC`/`hvcC`/`vpcC`/`av1C`) is modelled by
    `bytes`, its complete big-endian serialization as produced by
    `box.write(stream)` — an 8-byte header (4-byte size + 4-byte type)
    followed by the configuration payload.
* Promise resolution is explicit: a loading call ends in `LoadOutcome`
  (`ready` = `resolve`, `rejectedWith msg` = `reject(new Error(msg))`); an
  extraction call ends in `ExtractOutcome`, where `pending chunks` records
  that the read loop returned with the promise never settled (no `resolve`
  call was reached), holding `chunks` accumulated internally.
* Thrown exceptions are `Except.error`.
-/

namespace WebcodecsUtils

/-! ## Constants (source lines 40–42) -/

/-- `CHUNK_SIZE = 100` — samples per extraction batch (`nbSamples` passed to
`setExtractionOptions`; in the model the batch contents come from the oracle). -/
def CHUNK_SIZE : Nat := 100

/-- `FRAME_RATE_THRESHOLD = 0.5` — seconds tolerance in the extraction stop
condition. -/
def FRAME_RATE_THRESHOLD : ℚ := 1/2

/-- `DURATION_BUFFER = 0.1` — subtracted from the duration to avoid reading
beyond the last fully written sample. -/
def DURATION_BUFFER : ℚ := 1/10

/-! ## Codec description extraction (source lines 48–68) -/

/-- A codec-configuration sub-box found on a sample-description entry.
`bytes` is its full big-endian serialization (as written by
`box.write(new DataStream(undefined, 0, DataStream.BIG_ENDIAN))`),
beginning with the 8-byte box header. -/
structure ConfigBox where
  bytes : List Nat
  deriving DecidableEq, Repr

/-- One entry of `trak.mdia.minf.stbl.stsd.entries`, restricted to the four
codec-configuration sub-boxes the source inspects. -/
structure StsdEntry where
  avcC : Option ConfigBox
  hvcC : Option ConfigBox
  vpcC : Option ConfigBox
  av1C : Option ConfigBox
  deriving DecidableEq, Repr

/-- `entry.avcC || entry.hvcC || entry.vpcC || entry.av1C` — first present
(truthy) sub-box, in source order. -/
def configBoxOf (e : StsdEntry) : Option ConfigBox :=
  e.avcC <|> e.hvcC <|> e.vpcC <|> e.av1C

/-- A `trak` box as needed here: its track id and its
`mdia.minf.stbl.stsd.entries` list. -/
structure Trak where
  id : Nat
  stsdEntries : List StsdEntry
  deriving DecidableEq, Repr

/-- The mp4box `MP4File`'s track table, as consulted by `getTrackById`. -/
abbrev MP4FileModel := List Trak

/-- `mp4.getTrackById(track.id)`. -/
def getTrackById (mp4 : MP4FileModel) (tid : Nat) : Option Trak :=
  mp4.find? (fun t => t.id == tid)

/-- The `for (const entry of ... entries)` loop of `extractCodecDescription`:
first present codec-configuration sub-box over the entry list. -/
def findConfigBox : List StsdEntry → Option ConfigBox
  | [] => none
  | e :: rest =>
      match configBoxOf e with
      | some b => some b
      | none => findConfigBox rest

/-- Errors thrown by the metadata-resolution path. -/
inductive DemuxError
  | configNotFound
  | trackLookupFailed
  deriving DecidableEq, Repr

/-- The `message` of the `Error` object carried by each `DemuxError`. -/
def DemuxError.message : DemuxError → String
  | .configNotFound => "Codec description box (avcC, hvcC, vpcC, or av1C) not found"
  | .trackLookupFailed => "Cannot read properties of undefined"

/-- `extractCodecDescription(mp4, track)` (source lines 48–68): serialize the
first codec-configuration sub-box of the track's sample-description entries
and return its bytes with the 8-byte box header removed
(`new Uint8Array(stream.buffer, 8)`); throw if none of the four boxes is
present.  `trackLookupFailed` models the `TypeError` raised when
`getTrackById` yields no track (accessing `.mdia` of `undefined`). -/
def extractCodecDescription (mp4 : MP4FileModel) (tid : Nat) :
    Except DemuxError (List Nat) :=
  match getTrackById mp4 tid with
  | none => .error .trackLookupFailed
  | some trak =>
      match findConfigBox trak.stsdEntries with
      | some box => .ok (box.bytes.drop 8)
      | none => .error .configNotFound

/-! ## Track metadata (source lines 13–31 and 74–109) -/

/-- `VideoTrackData`. -/
structure VideoTrackData where
  codec : String
  codedHeight : Nat
  codedWidth : Nat
  description : List Nat
  frameRate : ℚ
  deriving DecidableEq, Repr

/-- `AudioTrackData`. -/
structure AudioTrackData where
  codec : String
  sampleRate : Nat
  numberOfChannels : Nat
  deriving DecidableEq, Repr

/-- `TrackData`. -/
structure TrackData where
  duration : ℚ
  video : Option VideoTrackData
  audio : Option AudioTrackData
  deriving DecidableEq, Repr

/-- The `audio` object of an mp4box audio track info entry; both fields may be
absent (source reads them with `?.` / `??`). -/
structure AudioSampleEntryInfo where
  sample_rate : Option Nat
  channel_count : Option Nat
  deriving DecidableEq, Repr

/-- An entry of `info.audioTracks`. -/
structure AudioTrackInfo where
  id : Nat
  codec : String
  timescale : Nat
  audio : Option AudioSampleEntryInfo
  deriving DecidableEq, Repr

/-- An entry of `info.videoTracks` (`width`/`height` are the source's
`videoTrack.video.width` / `videoTrack.video.height`). -/
structure VideoTrackInfo where
  id : Nat
  codec : String
  timescale : Nat
  width : Nat
  height : Nat
  nb_samples : Nat
  samples_duration : Nat
  deriving DecidableEq, Repr

/-- The mp4box `MP4Info` fields the source consults. -/
structure MP4Info where
  duration : Nat
  timescale : Nat
  videoTracks : List VideoTrackInfo
  audioTracks : List AudioTrackInfo
  deriving DecidableEq, Repr

/-- The audio-track branch of `extractTrackData` (source lines 95–106):
`sampleRate` is `audioTrack.audio?.sample_rate ?? audioTrack.timescale`,
`numberOfChannels` is `audioTrack.audio?.channel_count ?? 2`. -/
def audioSummaryOf (a : AudioTrackInfo) : AudioTrackData :=
  { codec := a.codec
    sampleRate := ((a.audio).bind (fun x => x.sample_rate)).getD a.timescale
    numberOfChannels := ((a.audio).bind (fun x => x.channel_count)).getD 2 }

/-- `extractTrackData(mp4, info)` (source lines 74–109).  The
`extractCodecDescription` throw propagates (`Except`). -/
def extractTrackData (mp4 : MP4FileModel) (info : MP4Info) :
    Except DemuxError TrackData :=
  match info.videoTracks.head? with
  | some vt =>
      (match extractCodecDescription mp4 vt.id with
       | .error e => .error e
       | .ok desc =>
          .ok { duration := (info.duration : ℚ) / (info.timescale : ℚ)
                video := some
                  { codec := vt.codec
                    codedHeight := vt.height
                    codedWidth := vt.width
                    description := desc
                    frameRate := (vt.nb_samples : ℚ) /
                      ((vt.samples_duration : ℚ) / (vt.timescale : ℚ)) }
                audio := (info.audioTracks.head?).map audioSummaryOf })
  | none =>
      .ok { duration := (info.duration : ℚ) / (info.timescale : ℚ)
            video := none
            audio := (info.audioTracks.head?).map audioSummaryOf }

/-! ## Progressive loading (`parseMP4Metadata`, source lines 116–186)

The byte source (`file.stream().getReader()`) is modelled by the list of the
chunk lengths it yields in order; `file.size` is their sum.  When the
`onReady` oracle fires during `appendBuffer`, the promise is settled at once:
`resolve` with the extracted track data if `extractTrackData` succeeds,
otherwise the throw escapes `appendBuffer` into the `catch`, which `reject`s
with the thrown error. -/

/-- How a `parseMP4Metadata` call settles.  `rejectedWith msg` is
`reject(new Error(msg))`. -/
inductive LoadOutcome
  | ready (td : TrackData)
  | rejectedWith (msg : String)
  deriving DecidableEq, Repr

/-- Whether `metadataReady` is `true` once `k` chunks have been appended,
given the oracle `fires` (the append count at which `onReady` fires). -/
def mdReady (fires : Option Nat) (k : Nat) : Bool :=
  match fires with
  | some j => decide (j ≤ k)
  | none => false

/-- Observable trace of one loading call: how the promise settled, how many
`reader.read()` calls were issued in total, and how many of those were issued
at a moment when `metadataReady` was already `true`. -/
structure LoaderRun where
  outcome : LoadOutcome
  reads : Nat
  readsAfterReady : Nat
  deriving DecidableEq, Repr

/-- How the promise settles at the moment `onReady` fires
(`resolve({info, trackData, mp4})`, or the `extractTrackData` throw escaping
into the `catch` and being `reject`ed). -/
def loadOutcomeOnReady (mp4 : MP4FileModel) (info : MP4Info) : LoadOutcome :=
  match extractTrackData mp4 info with
  | .ok td => .ready td
  | .error e => .rejectedWith e.message

/-- The `readNextChunk` recursion (source lines 140–184) over the remaining
chunk lengths, carrying `offset` and the number `k` of chunks appended so
far.  Each equation begins with one `reader.read()`:
* no chunk left (`done`): throw `InvalidContainer` if metadata never became
  ready, else `flush` and return (the promise was already resolved);
* `metadataReady` already `true`: release the lock, `flush`, return —
  this read was issued after the ready transition;
* otherwise append the chunk; if `onReady` fires now, settle the promise
  (a throw inside `appendBuffer` reaches the `catch` and stops the loop);
  then keep reading while `offset < file.size`, else `flush` and check
  `metadataReady` one last time. -/
def readNextChunk (mp4 : MP4FileModel) (info : MP4Info) (fires : Option Nat)
    (fileSize : Nat) : List Nat → Nat → Nat → LoaderRun
  | [], _offset, k =>
      if mdReady fires k then
        { outcome := loadOutcomeOnReady mp4 info, reads := 1, readsAfterReady := 1 }
      else
        { outcome := .rejectedWith "Invalid MP4 file: metadata not available"
          reads := 1, readsAfterReady := 0 }
  | c :: rest, offset, k =>
      if mdReady fires k then
        { outcome := loadOutcomeOnReady mp4 info, reads := 1, readsAfterReady := 1 }
      else if mdReady fires (k + 1) then
        match extractTrackData mp4 info with
        | .error e =>
            { outcome := .rejectedWith e.message, reads := 1, readsAfterReady := 0 }
        | .ok td =>
            if offset + c < fileSize then
              let r := readNextChunk mp4 info fires fileSize rest (offset + c) (k + 1)
              { outcome := .ready td, reads := r.reads + 1
                readsAfterReady := r.readsAfterReady }
            else
              { outcome := .ready td, reads := 1, readsAfterReady := 0 }
      else
        if offset + c < fileSize then
          let r := readNextChunk mp4 info fires fileSize rest (offset + c) (k + 1)
          { outcome := r.outcome, reads := r.reads + 1
            readsAfterReady := r.readsAfterReady }
        else
          { outcome := .rejectedWith "Invalid MP4 file: metadata not available"
            reads := 1, readsAfterReady := 0 }

/-- `parseMP4Metadata(file, onProgress)` (source lines 116–186), run over the
chunk lengths the file's stream yields. -/
def parseMP4Metadata (mp4 : MP4FileModel) (info : MP4Info) (fires : Option Nat)
    (chunks : List Nat) : LoaderRun :=
  readNextChunk mp4 info fires chunks.sum chunks 0 0

/-! ## Windowed sample extraction (`extractEncodedSegment`, source
lines 192–322) -/

/-- An mp4box `MP4Sample` as consulted by the `onSamples` callback. -/
structure MP4Sample where
  cts : Nat
  duration : Nat
  timescale : Nat
  is_sync : Bool
  data : List Nat
  deriving DecidableEq, Repr

/-- `"key"` / `"delta"`. -/
inductive ChunkType
  | key
  | delta
  deriving DecidableEq, Repr

/-- The constructor argument of `new EncodedChunk({...})` (WebCodecs
`EncodedVideoChunk` / `EncodedAudioChunk` init). -/
structure EncodedChunk where
  type : ChunkType
  timestamp : ℤ
  duration : ℤ
  data : List Nat
  deriving DecidableEq, Repr

/-- `sample.cts / sample.timescale`. -/
def sampleTimeOf (s : MP4Sample) : ℚ := (s.cts : ℚ) / (s.timescale : ℚ)

/-- The chunk built for an accepted sample (source lines 241–250). -/
def toEncodedChunk (s : MP4Sample) : EncodedChunk :=
  { type := if s.is_sync then .key else .delta
    timestamp := round ((1000000 : ℚ) * sampleTimeOf s)
    duration := round ((1000000 : ℚ) * ((s.duration : ℚ) / (s.timescale : ℚ)))
    data := s.data }

/-- The `for (const sample of samples)` filter/conversion loop of the
`onSamples` callback (source lines 236–252), appending accepted samples to the
accumulated `chunks` array. -/
def onSamplesFilter (startTime normalizedEnd : ℚ) (chunks : List EncodedChunk) :
    List MP4Sample → List EncodedChunk
  | [] => chunks
  | s :: rest =>
      if sampleTimeOf s < normalizedEnd ∧ startTime ≤ sampleTimeOf s then
        onSamplesFilter startTime normalizedEnd (chunks ++ [toEncodedChunk s]) rest
      else
        onSamplesFilter startTime normalizedEnd chunks rest

/-- The stop condition checked after each batch (source lines 260–273): the
chunk list is non-empty and its last element's time (`timestamp / 1e6`) is
within `FRAME_RATE_THRESHOLD` of `normalizedEnd` or beyond it. -/
def stopCondition (normalizedEnd : ℚ) (chunks : List EncodedChunk) : Bool :=
  match chunks.getLast? with
  | none => false
  | some lastChunk =>
      decide (|(lastChunk.timestamp : ℚ) / 1000000 - normalizedEnd| <
        FRAME_RATE_THRESHOLD) ||
      decide (normalizedEnd < (lastChunk.timestamp : ℚ) / 1000000)

/-- How an `extractEncodedSegment` call ends.  `resolved` is the
`resolve(chunks)` inside the stop condition (or the absent-track early
`resolve([])`); `pending chunks` records that the read loop hit `done`
without the stop condition ever having triggered: it releases the lock,
flushes and returns, and the promise is never settled. -/
inductive ExtractOutcome
  | resolved (chunks : List EncodedChunk)
  | pending (chunks : List EncodedChunk)
  deriving DecidableEq, Repr

/-- The `readNextSegment` pull loop (source lines 298–317) abstracted over the
`onSamples` batches the box-tree primitive delivers while bytes are appended
(including batches delivered by the final `flush`).  Each delivered batch is
filtered/converted, then the stop condition is checked; the first time it
holds, `mp4.stop(); mp4.flush(); resolve(chunks)` runs. -/
def readNextSegment (startTime normalizedEnd : ℚ) :
    List (List MP4Sample) → List EncodedChunk → ExtractOutcome
  | [], chunks => .pending chunks
  | batch :: rest, chunks =>
      let chunks2 := onSamplesFilter startTime normalizedEnd chunks batch
      if stopCondition normalizedEnd chunks2 then .resolved chunks2
      else readNextSegment startTime normalizedEnd rest chunks2

/-- Track type selector of `extractEncodedSegment`. -/
inductive TrackType
  | audio
  | video
  deriving DecidableEq, Repr

/-- `const maxDuration = info.duration / info.timescale - DURATION_BUFFER`. -/
def maxDurationOf (info : MP4Info) : ℚ :=
  (info.duration : ℚ) / (info.timescale : ℚ) - DURATION_BUFFER

/-- `const normalizedEnd = Math.min(endTime || maxDuration, maxDuration)`
(source line 225); `endTime = none` models an `undefined` argument, and `0`
is falsy in `endTime || maxDuration`. -/
def normalizedEndOf (info : MP4Info) (endTime : Option ℚ) : ℚ :=
  min (match endTime with
       | none => maxDurationOf info
       | some e => if e = 0 then maxDurationOf info else e)
      (maxDurationOf info)

/-- `extractEncodedSegment(file, mp4Data, trackType, startTime, endTime)`
(source lines 192–322).  The seek (`mp4.seek(startTime, true)`) and the byte
feed only determine which `onSamples` batches arrive; those are the oracle
`batches`.  An absent track resolves `[]` immediately. -/
def extractEncodedSegment (info : MP4Info) (trackType : TrackType)
    (startTime : ℚ) (endTime : Option ℚ)
    (batches : List (List MP4Sample)) : ExtractOutcome :=
  let selectedTrack : Option Nat :=
    match trackType with
    | .audio => (info.audioTracks.head?).map (fun a => a.id)
    | .video => (info.videoTracks.head?).map (fun v => v.id)
  match selectedTrack with
  | none => .resolved []
  | some _trackId =>
      readNextSegment startTime (normalizedEndOf info endTime) batches []

/-! ## The `MP4Demuxer` class (source lines 337–430) -/

/-- The `MP4Data` triple cached by a successful `load()`. -/
structure MP4Data where
  trackData : TrackData
  info : MP4Info
  mp4 : MP4FileModel
  deriving DecidableEq, Repr

/-- An `MP4Demuxer` instance: `mp4Data` is `null` until `load()` completes
successfully (the constructor sets it to `null`, and a rejected
`parseMP4Metadata` leaves it unassigned). -/
structure MP4Demuxer where
  mp4Data : Option MP4Data
  deriving DecidableEq, Repr

/-- `getTracks()` (source lines 363–368); the throw is `Except.error`. -/
def MP4Demuxer.getTracks (d : MP4Demuxer) : Except String TrackData :=
  match d.mp4Data with
  | none => .error "MP4Demuxer: Must call load() before getTracks()"
  | some m => .ok m.trackData

/-- `getVideoTrack()` — `this.getTracks().video`, the throw propagating. -/
def MP4Demuxer.getVideoTrack (d : MP4Demuxer) :
    Except String (Option VideoTrackData) :=
  (d.getTracks).map TrackData.video

/-- `getAudioTrack()` — `this.getTracks().audio`, the throw propagating. -/
def MP4Demuxer.getAudioTrack (d : MP4Demuxer) :
    Except String (Option AudioTrackData) :=
  (d.getTracks).map TrackData.audio

/-- `extractSegment(trackType, startTime, endTime)` (source lines 408–417). -/
def MP4Demuxer.extractSegment (d : MP4Demuxer) (trackType : TrackType)
    (startTime : ℚ) (endTime : Option ℚ) (batches : List (List MP4Sample)) :
    Except String ExtractOutcome :=
  match d.mp4Data with
  | none => .error "MP4Demuxer: Must call load() before extractSegment()"
  | some m => .ok (extractEncodedSegment m.info trackType startTime endTime batches)

/-- `getInfo()` (source lines 424–429). -/
def MP4Demuxer.getInfo (d : MP4Demuxer) : Except String MP4Info :=
  match d.mp4Data with
  | none => .error "MP4Demuxer: Must call load() before getInfo()"
  | some m => .ok m.info

/-! ## Helper lemmas -/

/-- `findConfigBox` is the first entry-wise hit of `configBoxOf`. -/
lemma findConfigBox_eq_findSome? (l : List StsdEntry) :
    findConfigBox l = l.findSome? configBoxOf := by
  induction l with
  | nil => rfl
  | cons e rest ih =>
      rw [findConfigBox, List.findSome?_cons]
      cases configBoxOf e <;> simp [ih]

/-- If no entry carries a configuration box, the entry scan yields nothing. -/
lemma findConfigBox_eq_none_of_forall {l : List StsdEntry}
    (h : ∀ e ∈ l, configBoxOf e = none) : findConfigBox l = none := by
  induction l with
  | nil => rfl
  | cons e rest ih =>
      rw [findConfigBox, h e (by simp)]
      exact ih (fun x hx => h x (by simp [hx]))

/-- A track whose sample-description entries carry none of the four boxes
makes `extractCodecDescription` throw `configNotFound`. -/
lemma extractCodecDescription_error_of_no_config {mp4 : MP4FileModel}
    {tid : Nat} {trak : Trak} (ht : getTrackById mp4 tid = some trak)
    (hnone : ∀ e ∈ trak.stsdEntries, configBoxOf e = none) :
    extractCodecDescription mp4 tid = .error .configNotFound := by
  unfold extractCodecDescription
  rw [ht]
  dsimp only
  rw [findConfigBox_eq_none_of_forall hnone]

/-- If the first video track's entries carry no configuration box, metadata
resolution throws `configNotFound`. -/
lemma extractTrackData_error_of_no_config {mp4 : MP4FileModel} {info : MP4Info}
    {vt : VideoTrackInfo} {trak : Trak}
    (hv : info.videoTracks.head? = some vt)
    (ht : getTrackById mp4 vt.id = some trak)
    (hnone : ∀ e ∈ trak.stsdEntries, configBoxOf e = none) :
    extractTrackData mp4 info = .error .configNotFound := by
  unfold extractTrackData
  rw [hv]
  dsimp only
  rw [extractCodecDescription_error_of_no_config ht hnone]

/-- `mdReady` is monotone in the number of appended chunks (contrapositive
form). -/
lemma mdReady_false_of_le {fires : Option Nat} {j k : Nat} (hjk : j ≤ k)
    (hk : mdReady fires k = false) : mdReady fires j = false := by
  cases fires with
  | none => rfl
  | some m =>
      simp only [mdReady, decide_eq_false_iff_not] at hk ⊢
      exact fun hm => hk (hm.trans hjk)

/-- If metadata never becomes ready within the chunks still to be appended,
the read loop ends by rejecting with the `InvalidContainer` message. -/
lemma readNextChunk_invalid (mp4 : MP4FileModel) (info : MP4Info)
    (fires : Option Nat) (fileSize : Nat) :
    ∀ (rest : List Nat) (offset k : Nat),
      mdReady fires (k + rest.length) = false →
      (readNextChunk mp4 info fires fileSize rest offset k).outcome =
        LoadOutcome.rejectedWith "Invalid MP4 file: metadata not available" := by
  intro rest
  induction rest with
  | nil =>
      intro offset k h
      simp only [List.length_nil, Nat.add_zero] at h
      rw [readNextChunk, if_neg (by simp [h])]
  | cons c rest ih =>
      intro offset k h
      have hk : mdReady fires k = false :=
        mdReady_false_of_le (by omega) h
      have hk1 : mdReady fires (k + 1) = false :=
        mdReady_false_of_le (by simp only [List.length_cons]; omega) h
      rw [readNextChunk, if_neg (by simp [hk]), if_neg (by simp [hk1])]
      by_cases hoff : offset + c < fileSize
      · rw [if_pos hoff]
        exact ih (offset + c) (k + 1)
          (mdReady_false_of_le (by simp only [List.length_cons]; omega) h)
      · rw [if_neg hoff]

/-- After `metadataReady` becomes true, at most one further `reader.read()` is
issued, in any run of the read loop. -/
lemma readNextChunk_readsAfterReady_le_one (mp4 : MP4FileModel) (info : MP4Info)
    (fires : Option Nat) (fileSize : Nat) :
    ∀ (rest : List Nat) (offset k : Nat),
      (readNextChunk mp4 info fires fileSize rest offset k).readsAfterReady ≤ 1 := by
  intro rest
  induction rest with
  | nil =>
      intro offset k
      rw [readNextChunk]
      by_cases h : mdReady fires k = true
      · rw [if_pos h]
      · rw [if_neg h]
        exact Nat.zero_le 1
  | cons c rest ih =>
      intro offset k
      rw [readNextChunk]
      by_cases h : mdReady fires k = true
      · rw [if_pos h]
      · rw [if_neg h]
        by_cases h1 : mdReady fires (k + 1) = true
        · rw [if_pos h1]
          cases hE : extractTrackData mp4 info with
          | error e => exact Nat.zero_le 1
          | ok td =>
              dsimp only
              by_cases hoff : offset + c < fileSize
              · rw [if_pos hoff]
                exact ih (offset + c) (k + 1)
              · rw [if_neg hoff]
                exact Nat.zero_le 1
        · rw [if_neg h1]
          by_cases hoff : offset + c < fileSize
          · rw [if_pos hoff]
            exact ih (offset + c) (k + 1)
          · rw [if_neg hoff]
            exact Nat.zero_le 1

/-- If metadata resolution throws, no run of the read loop resolves the
loading promise with track data: the outcome is always a rejection. -/
lemma readNextChunk_no_ready_of_error {mp4 : MP4FileModel} {info : MP4Info}
    {e : DemuxError} (hE : extractTrackData mp4 info = .error e)
    (fires : Option Nat) (fileSize : Nat) :
    ∀ (rest : List Nat) (offset k : Nat) (td : TrackData),
      (readNextChunk mp4 info fires fileSize rest offset k).outcome ≠
        LoadOutcome.ready td := by
  intro rest
  induction rest with
  | nil =>
      intro offset k td
      rw [readNextChunk]
      by_cases h : mdReady fires k = true
      · rw [if_pos h]
        simp [loadOutcomeOnReady, hE]
      · rw [if_neg h]
        simp
  | cons c rest ih =>
      intro offset k td
      rw [readNextChunk]
      by_cases h : mdReady fires k = true
      · rw [if_pos h]
        simp [loadOutcomeOnReady, hE]
      · rw [if_neg h]
        by_cases h1 : mdReady fires (k + 1) = true
        · rw [if_pos h1, hE]
          simp
        · rw [if_neg h1]
          by_cases hoff : offset + c < fileSize
          · rw [if_pos hoff]
            exact ih (offset + c) (k + 1) td
          · rw [if_neg hoff]
            simp

/-- The `onSamples` filter/conversion loop equals appending the converted
in-window samples of the batch to the accumulated chunk list. -/
lemma onSamplesFilter_eq (startTime normalizedEnd : ℚ) :
    ∀ (l : List MP4Sample) (acc : List EncodedChunk),
      onSamplesFilter startTime normalizedEnd acc l =
        acc ++ (l.filter (fun s =>
          decide (sampleTimeOf s < normalizedEnd ∧
            startTime ≤ sampleTimeOf s))).map toEncodedChunk := by
  intro l
  induction l with
  | nil => intro acc; simp [onSamplesFilter]
  | cons s rest ih =>
      intro acc
      rw [onSamplesFilter]
      by_cases h : sampleTimeOf s < normalizedEnd ∧ startTime ≤ sampleTimeOf s
      · rw [if_pos h, ih, List.filter_cons_of_pos (by simpa using h), List.map_cons]
        simp
      · rw [if_neg h, ih, List.filter_cons_of_neg (by simpa using h)]

/-- Membership in the `onSamples` filter/conversion loop: a chunk is in the
output exactly when it was already accumulated or comes from an in-window
sample of the batch. -/
lemma mem_onSamplesFilter {startTime normalizedEnd : ℚ}
    {l : List MP4Sample} {acc : List EncodedChunk} {c : EncodedChunk} :
    c ∈ onSamplesFilter startTime normalizedEnd acc l ↔
      c ∈ acc ∨ ∃ s ∈ l,
        (sampleTimeOf s < normalizedEnd ∧ startTime ≤ sampleTimeOf s) ∧
        c = toEncodedChunk s := by
  rw [onSamplesFilter_eq]
  simp only [List.mem_append, List.mem_map, List.mem_filter, decide_eq_true_eq]
  constructor
  · rintro (hc | ⟨s, ⟨hs, hw⟩, rfl⟩)
    · exact Or.inl hc
    · exact Or.inr ⟨s, hs, hw, rfl⟩
  · rintro (hc | ⟨s, hs, hw, rfl⟩)
    · exact Or.inl hc
    · exact Or.inr ⟨s, ⟨hs, hw⟩, rfl⟩

/-- Every chunk held when the extraction pull loop ends — whether the promise
was resolved or left pending — was accumulated at the start or arises from an
in-window sample of one of the delivered batches. -/
lemma readNextSegment_mem (startTime normalizedEnd : ℚ) :
    ∀ (batches : List (List MP4Sample)) (acc out : List EncodedChunk),
      (readNextSegment startTime normalizedEnd batches acc =
          ExtractOutcome.resolved out ∨
        readNextSegment startTime normalizedEnd batches acc =
          ExtractOutcome.pending out) →
      ∀ c ∈ out, c ∈ acc ∨ ∃ s, (∃ b ∈ batches, s ∈ b) ∧
        (sampleTimeOf s < normalizedEnd ∧ startTime ≤ sampleTimeOf s) ∧
        c = toEncodedChunk s := by
  intro batches
  induction batches with
  | nil =>
      intro acc out h c hc
      rcases h with h | h
      · rw [readNextSegment] at h
        cases h
      · rw [readNextSegment] at h
        cases h
        exact Or.inl hc
  | cons batch rest ih =>
      intro acc out h c hc
      rw [readNextSegment] at h
      by_cases hstop :
          stopCondition normalizedEnd
            (onSamplesFilter startTime normalizedEnd acc batch) = true
      · rw [if_pos hstop] at h
        have hout : onSamplesFilter startTime normalizedEnd acc batch = out := by
          rcases h with h | h
          · injection h
          · cases h
        rw [← hout] at hc
        rcases mem_onSamplesFilter.mp hc with hacc | ⟨s, hs, hw, hcs⟩
        · exact Or.inl hacc
        · exact Or.inr ⟨s, ⟨batch, by simp, hs⟩, hw, hcs⟩
      · rw [if_neg hstop] at h
        rcases ih (onSamplesFilter startTime normalizedEnd acc batch) out h c hc with
          hacc | ⟨s, ⟨b, hb, hsb⟩, hw, hcs⟩
        · rcases mem_onSamplesFilter.mp hacc with hacc' | ⟨s, hs, hw, hcs⟩
          · exact Or.inl hacc'
          · exact Or.inr ⟨s, ⟨batch, by simp, hs⟩, hw, hcs⟩
        · exact Or.inr ⟨s, ⟨b, by simp [hb], hsb⟩, hw, hcs⟩

/-! ## Concrete instances used by witnesses and counterexamples -/

/-- A sample-description entry carrying none of the four configuration boxes. -/
def entryNoBoxes : StsdEntry := { avcC := none, hvcC := none, vpcC := none, av1C := none }

/-- A track whose sample descriptions carry no configuration box. -/
def trakNoConfig : Trak := { id := 1, stsdEntries := [entryNoBoxes] }

/-- A serialized `avcC` box: 8-byte header (size `0 0 0 11`, type `avcC`)
followed by the payload `[1, 2, 3]`. -/
def avcBox : ConfigBox := { bytes := [0, 0, 0, 11, 97, 118, 99, 67, 1, 2, 3] }

/-- A track with an `avcC` box on its first sample-description entry. -/
def trakWithAvcC : Trak :=
  { id := 1
    stsdEntries := [{ avcC := some avcBox, hvcC := none, vpcC := none, av1C := none }] }

/-- A 48 kHz stereo AAC audio track info entry. -/
def audioInfoEx : AudioTrackInfo :=
  { id := 2, codec := "mp4a.40.2", timescale := 48000
    audio := some { sample_rate := some 48000, channel_count := some 2 } }

/-- A 1080p H.264 video track info entry (track id 1). -/
def videoInfoEx : VideoTrackInfo :=
  { id := 1, codec := "avc1.64001f", timescale := 600, width := 1920, height := 1080
    nb_samples := 300, samples_duration := 3000 }

/-- A 10-second container with both a video and an audio track. -/
def infoAV : MP4Info :=
  { duration := 100, timescale := 10, videoTracks := [videoInfoEx]
    audioTracks := [audioInfoEx] }

/-- A 20-second audio-only container. -/
def infoAudioOnly : MP4Info :=
  { duration := 20, timescale := 1, videoTracks := [], audioTracks := [audioInfoEx] }

/-- A 100-second video-only container (timescale 10). -/
def infoVideoOnly : MP4Info :=
  { duration := 1000, timescale := 10, videoTracks := [videoInfoEx], audioTracks := [] }

/-- A 100-second video-only container (timescale 1). -/
def infoLong : MP4Info :=
  { duration := 100, timescale := 1, videoTracks := [videoInfoEx], audioTracks := [] }

/-- A key sample at 1 s (`cts/timescale = 10/10`). -/
def sampleAtOneSec : MP4Sample :=
  { cts := 10, duration := 1, timescale := 10, is_sync := true, data := [1, 2] }

/-- A key sample at `1/3000000` s: its timestamp in microseconds is `1/3`,
which `Math.round` sends to `0`. -/
def sampleTiny : MP4Sample :=
  { cts := 1, duration := 1, timescale := 3000000, is_sync := true, data := [] }

/-- The chunk `extractEncodedSegment` builds from `sampleTiny`. -/
def chunkTiny : EncodedChunk := { type := .key, timestamp := 0, duration := 0, data := [] }

/-- An arbitrary `TrackData` value, used to instantiate universally
quantified conclusions in witnesses. -/
def tdEmpty : TrackData := { duration := 0, video := none, audio := none }

/-! ## Claims -/

/-- C2 counterexample: a container whose (first) video track carries none of
the four configuration boxes but which has an audio track.  The claim says
loading still succeeds with an audio track summary; in the code the
`extractCodecDescription` throw escapes `onReady` into the read loop's
`catch`, which rejects the whole `parseMP4Metadata` promise. -/
theorem load_missing_config_with_audio_rejects :
    (parseMP4Metadata [trakNoConfig] infoAV (some 1) [10]).outcome =
      LoadOutcome.rejectedWith
        "Codec description box (avcC, hvcC, vpcC, or av1C) not found" := by
  decide

/-- C2 (amended): `ConfigNotFound` is fatal to the entire load call — when
the first video track's sample-description entries carry none of the four
boxes, metadata resolution throws `configNotFound` and no run of the loader
ever resolves with track data, audio track or not.  Audio-only use is
unaffected only for containers with no video track at all, whose metadata
resolution succeeds and carries the audio track summary. -/
theorem configNotFound_fatal_to_load (mp4 : MP4FileModel) (info : MP4Info)
    (fires : Option Nat) (chunks : List Nat) (vt : VideoTrackInfo) (trak : Trak)
    (hv : info.videoTracks.head? = some vt)
    (ht : getTrackById mp4 vt.id = some trak)
    (hnone : ∀ e ∈ trak.stsdEntries, configBoxOf e = none) :
    (∀ td, (parseMP4Metadata mp4 info fires chunks).outcome ≠ LoadOutcome.ready td) ∧
    (∀ info2 : MP4Info, info2.videoTracks = [] →
      ∀ a, info2.audioTracks.head? = some a →
        extractTrackData mp4 info2 =
          Except.ok { duration := (info2.duration : ℚ) / (info2.timescale : ℚ)
                      video := none
                      audio := some (audioSummaryOf a) }) := by
  constructor
  · intro td
    exact readNextChunk_no_ready_of_error
      (extractTrackData_error_of_no_config hv ht hnone) fires chunks.sum chunks 0 0 td
  · intro info2 hv2 a ha2
    unfold extractTrackData
    rw [hv2]
    simp only [List.head?_nil]
    rw [ha2]
    rfl

/-- C2 witness: the amended claim applied at a concrete container with a
config-less video track plus audio (never resolves), and at a concrete
audio-only container (metadata resolution succeeds with the audio summary). -/
theorem configNotFound_fatal_to_load_witness :
    (parseMP4Metadata [trakNoConfig] infoAV (some 1) [10]).outcome ≠
      LoadOutcome.ready tdEmpty ∧
    extractTrackData [trakNoConfig] infoAudioOnly =
      Except.ok { duration := (infoAudioOnly.duration : ℚ) / (infoAudioOnly.timescale : ℚ)
                  video := none
                  audio := some (audioSummaryOf audioInfoEx) } :=
  have h := configNotFound_fatal_to_load [trakNoConfig] infoAV (some 1) [10]
    videoInfoEx trakNoConfig rfl rfl (by decide)
  ⟨h.1 tdEmpty, h.2 infoAudioOnly rfl audioInfoEx rfl⟩

/-- C5: the effective end of the extraction window is
`min(endTime, duration − 0.1)` for a specified nonzero `endTime`, and
`duration − 0.1` when `endTime` is unspecified or zero. -/
theorem normalizedEnd_clamping (info : MP4Info) (endTime : Option ℚ) :
    (∀ e, endTime = some e → e ≠ 0 →
      normalizedEndOf info endTime =
        min e ((info.duration : ℚ) / (info.timescale : ℚ) - 1/10)) ∧
    (endTime = none ∨ endTime = some 0 →
      normalizedEndOf info endTime =
        (info.duration : ℚ) / (info.timescale : ℚ) - 1/10) := by
  constructor
  · rintro e rfl he
    rw [normalizedEndOf, maxDurationOf, DURATION_BUFFER]
    rw [if_neg he]
  · rintro (rfl | rfl)
    · rw [normalizedEndOf, maxDurationOf, DURATION_BUFFER]
      exact min_self _
    · rw [normalizedEndOf, maxDurationOf, DURATION_BUFFER]
      rw [if_pos rfl]
      exact min_self _

/-- C5 witness: the clamping rule evaluated at a concrete container, for a
specified nonzero end time and for an unspecified one. -/
theorem normalizedEnd_clamping_witness :
    normalizedEndOf infoLong (some 2) =
      min 2 ((infoLong.duration : ℚ) / (infoLong.timescale : ℚ) - 1/10) ∧
    normalizedEndOf infoLong none =
      (infoLong.duration : ℚ) / (infoLong.timescale : ℚ) - 1/10 :=
  ⟨(normalizedEnd_clamping infoLong (some 2)).1 2 rfl (by norm_num),
   (normalizedEnd_clamping infoLong none).2 (Or.inl rfl)⟩

/-- C6 counterexample: the claim says no further chunk is ever requested from
the byte source after the `MetadataReady` transition.  In the code the read
loop calls `reader.read()` first and only then checks `metadataReady`, so
when metadata becomes ready before the file is fully fed, exactly one more
read is issued (its chunk is then discarded). -/
theorem read_issued_after_metadata_ready :
    ¬ ((parseMP4Metadata [] infoAudioOnly (some 1) [10, 10]).readsAfterReady = 0) := by
  decide

/-- C6 (amended): after the `MetadataReady` transition the loader issues at
most one further read — the one already implied by the read-then-check loop
shape — and then stops; the chunk obtained by that read is never appended. -/
theorem at_most_one_read_after_ready (mp4 : MP4FileModel) (info : MP4Info)
    (fires : Option Nat) (chunks : List Nat) :
    (parseMP4Metadata mp4 info fires chunks).readsAfterReady ≤ 1 :=
  readNextChunk_readsAfterReady_le_one mp4 info fires chunks.sum chunks 0 0

/-- C7: a source fully consumed without the box-tree primitive ever
signalling readiness makes the (always-terminating) loading call reject with
the `InvalidContainer` message. -/
theorem exhausted_without_metadata_rejects (mp4 : MP4FileModel) (info : MP4Info)
    (fires : Option Nat) (chunks : List Nat)
    (h : mdReady fires chunks.length = false) :
    (parseMP4Metadata mp4 info fires chunks).outcome =
      LoadOutcome.rejectedWith "Invalid MP4 file: metadata not available" :=
  readNextChunk_invalid mp4 info fires chunks.sum chunks 0 0 (by simpa using h)

/-- C7 witness: a one-chunk source whose oracle never fires. -/
theorem exhausted_without_metadata_rejects_witness :
    mdReady none [5].length = false ∧
    (parseMP4Metadata [] infoAudioOnly none [5]).outcome =
      LoadOutcome.rejectedWith "Invalid MP4 file: metadata not available" :=
  ⟨rfl, exhausted_without_metadata_rejects [] infoAudioOnly none [5] rfl⟩


/-- C1 (code bug): the spec says that when the byte source is exhausted
before the stop condition of step 7 has triggered, extraction ends with the
samples accumulated so far.  In the code the `done` branch of
`readNextSegment` only releases the lock, flushes and returns — no
`resolve(chunks)` is reached, so the `extractSegment` promise never settles.
This theorem evaluates the model at a failing input: a present video track,
window `[0, 50)`, and a source that delivers one in-window sample (at 1 s)
and is then exhausted. -/
theorem extractSegment_exhausted_leaves_promise_pending :
    extractEncodedSegment infoVideoOnly TrackType.video 0 (some 50) [[sampleAtOneSec]] =
      ExtractOutcome.pending
        [{ type := .key, timestamp := 1000000, duration := 100000, data := [1, 2] }] := by
  rw [extractEncodedSegment]
  norm_num [infoVideoOnly, videoInfoEx, sampleAtOneSec, readNextSegment, onSamplesFilter,
    stopCondition, toEncodedChunk, sampleTimeOf, normalizedEndOf, maxDurationOf,
    FRAME_RATE_THRESHOLD, DURATION_BUFFER, round_eq, abs_lt, List.getLast?]

/-- C3: a sample delivered in a batch is included exactly when
`startTime ≤ cts/timescale < normalizedEnd`, and an included sample is
converted with `timestamp = round(1e6 · cts/timescale)`,
`duration = round(1e6 · sampleDuration/timescale)`, and `kind = key` iff its
sync-sample flag is set. -/
theorem onSamples_inclusion_iff_conversion (startTime normalizedEnd : ℚ)
    (batch : List MP4Sample) (c : EncodedChunk) :
    c ∈ onSamplesFilter startTime normalizedEnd [] batch ↔
      ∃ s ∈ batch,
        (startTime ≤ (s.cts : ℚ) / (s.timescale : ℚ) ∧
          (s.cts : ℚ) / (s.timescale : ℚ) < normalizedEnd) ∧
        c = { type := if s.is_sync then ChunkType.key else ChunkType.delta
              timestamp := round ((1000000 : ℚ) * ((s.cts : ℚ) / (s.timescale : ℚ)))
              duration := round ((1000000 : ℚ) * ((s.duration : ℚ) / (s.timescale : ℚ)))
              data := s.data } := by
  rw [mem_onSamplesFilter]
  simp only [List.not_mem_nil, false_or, sampleTimeOf, toEncodedChunk]
  constructor
  · rintro ⟨s, hs, ⟨h1, h2⟩, rfl⟩
    exact ⟨s, hs, ⟨h2, h1⟩, rfl⟩
  · rintro ⟨s, hs, ⟨h1, h2⟩, rfl⟩
    exact ⟨s, hs, ⟨h2, h1⟩, rfl⟩

/-- C4 counterexample: for the valid window `[1/3000000, 2/5)` on a
100-second container, the single returned sample sits exactly at the window
start, but `Math.round` sends its microsecond timestamp `1/3` down to `0`,
which is strictly below `s·1e6 = 1/3`.  The claim's closed lower bound
`s·1e6 ≤ timestamp` is therefore violated. -/
theorem returned_timestamp_below_window_start :
    ((0 : ℚ) ≤ 1/3000000 ∧ (1/3000000 : ℚ) < 2/5 ∧
      (2/5 : ℚ) ≤ (infoLong.duration : ℚ) / (infoLong.timescale : ℚ)) ∧
    extractEncodedSegment infoLong TrackType.video (1/3000000) (some (2/5)) [[sampleTiny]] =
      ExtractOutcome.resolved [chunkTiny] ∧
    ¬ ((1/3000000 : ℚ) * 1000000 ≤ (chunkTiny.timestamp : ℚ)) := by
  refine ⟨⟨by norm_num, by norm_num, by norm_num [infoLong]⟩, ?_, ?_⟩
  · rw [extractEncodedSegment]
    norm_num [infoLong, videoInfoEx, sampleTiny, chunkTiny, readNextSegment,
      onSamplesFilter, stopCondition, toEncodedChunk, sampleTimeOf, normalizedEndOf,
      maxDurationOf, FRAME_RATE_THRESHOLD, DURATION_BUFFER, round_eq, abs_lt,
      List.getLast?]
  · norm_num [chunkTiny]

/-- Bounds for every chunk of a resolved extraction run: each accepted sample
has `startTime ≤ t < normalizedEnd ≤ e`, and rounding to integer
microseconds moves the timestamp by at most `1/2` µs. -/
lemma readNextSegment_resolved_bounds {info : MP4Info} {s e : ℚ}
    {batches : List (List MP4Sample)} {out : List EncodedChunk}
    (hs : 0 ≤ s) (hse : s < e)
    (hrun : readNextSegment s (normalizedEndOf info (some e)) batches [] =
      ExtractOutcome.resolved out) :
    ∀ c ∈ out, s * 1000000 - 1/2 ≤ (c.timestamp : ℚ) ∧
      (c.timestamp : ℚ) ≤ (e + 1/2) * 1000000 := by
  intro c hc
  rcases readNextSegment_mem s (normalizedEndOf info (some e)) batches [] out
      (Or.inl hrun) c hc with h0 | ⟨smp, _, ⟨hlt, hge⟩, rfl⟩
  · exact absurd h0 (List.not_mem_nil c)
  · have hEnd : normalizedEndOf info (some e) ≤ e := by
      have hne : ¬ (e = 0) := by
        intro h
        rw [h] at hse
        exact absurd (lt_of_le_of_lt hs hse) (lt_irrefl 0)
      rw [normalizedEndOf, if_neg hne]
      exact min_le_left _ _
    have hround : |(1000000 : ℚ) * sampleTimeOf smp -
        (round ((1000000 : ℚ) * sampleTimeOf smp) : ℤ)| ≤ 1/2 :=
      abs_sub_round _
    rw [abs_le] at hround
    have hts : s ≤ sampleTimeOf smp := hge
    have hte : sampleTimeOf smp ≤ e := le_of_lt (lt_of_lt_of_le hlt hEnd)
    have hmul1 : (1000000 : ℚ) * s ≤ 1000000 * sampleTimeOf smp := by nlinarith
    have hmul2 : (1000000 : ℚ) * sampleTimeOf smp ≤ 1000000 * e := by nlinarith
    simp only [toEncodedChunk]
    constructor
    · nlinarith [hround.2]
    · nlinarith [hround.1]

/-- C4 (amended): for every valid window `[s, e)` with `0 ≤ s < e ≤ duration`,
every sample returned by a resolved extraction call has a timestamp in
`[s·1e6 − 1/2, (e + 1/2)·1e6]` — the lower endpoint is half a microsecond
below `s·1e6` because `Math.round` may round the first sample's microsecond
timestamp down. -/
theorem resolved_timestamps_within_tolerance (info : MP4Info) (tt : TrackType)
    (s e : ℚ) (batches : List (List MP4Sample)) (out : List EncodedChunk)
    (hs : 0 ≤ s) (hse : s < e)
    (he : e ≤ (info.duration : ℚ) / (info.timescale : ℚ))
    (hrun : extractEncodedSegment info tt s (some e) batches =
      ExtractOutcome.resolved out) :
    ∀ c ∈ out, s * 1000000 - 1/2 ≤ (c.timestamp : ℚ) ∧
      (c.timestamp : ℚ) ≤ (e + 1/2) * 1000000 := by
  rw [extractEncodedSegment.eq_def] at hrun
  cases tt with
  | audio =>
      cases ha : info.audioTracks.head? with
      | none =>
          rw [ha] at hrun
          simp only [Option.map_none'] at hrun
          injection hrun with hrun
          subst hrun
          intro c hc
          exact absurd hc (List.not_mem_nil c)
      | some a =>
          rw [ha] at hrun
          simp only [Option.map_some'] at hrun
          exact readNextSegment_resolved_bounds hs hse hrun
  | video =>
      cases hv : info.videoTracks.head? with
      | none =>
          rw [hv] at hrun
          simp only [Option.map_none'] at hrun
          injection hrun with hrun
          subst hrun
          intro c hc
          exact absurd hc (List.not_mem_nil c)
      | some v =>
          rw [hv] at hrun
          simp only [Option.map_some'] at hrun
          exact readNextSegment_resolved_bounds hs hse hrun

/-- C4 witness: the amended bounds hold for the chunk returned by the
concrete resolved run of the counterexample scenario. -/
theorem resolved_timestamps_within_tolerance_witness :
    (1/3000000 : ℚ) * 1000000 - 1/2 ≤ (chunkTiny.timestamp : ℚ) ∧
    (chunkTiny.timestamp : ℚ) ≤ (2/5 + 1/2) * 1000000 :=
  resolved_timestamps_within_tolerance infoLong TrackType.video (1/3000000) (2/5)
    [[sampleTiny]] [chunkTiny] (by norm_num) (by norm_num)
    (by norm_num [infoLong])
    (by
      rw [extractEncodedSegment]
      norm_num [infoLong, videoInfoEx, sampleTiny, chunkTiny, readNextSegment,
        onSamplesFilter, stopCondition, toEncodedChunk, sampleTimeOf, normalizedEndOf,
        maxDurationOf, FRAME_RATE_THRESHOLD, DURATION_BUFFER, round_eq, abs_lt,
        List.getLast?])
    chunkTiny (by simp)

/-- C8: for a parsed track, the codec description extractor returns the first
sample-description entry's present configuration box (in `avcC`, `hvcC`,
`vpcC`, `av1C` preference order within an entry, first entry first),
serialized with its first 8 header bytes removed; if no entry carries any of
the four boxes it fails with `configNotFound`. -/
theorem codec_description_first_box (mp4 : MP4FileModel) (tid : Nat) (trak : Trak)
    (h : getTrackById mp4 tid = some trak) :
    (∀ box, trak.stsdEntries.findSome? configBoxOf = some box →
      extractCodecDescription mp4 tid = Except.ok (box.bytes.drop 8)) ∧
    ((∀ e ∈ trak.stsdEntries, configBoxOf e = none) →
      extractCodecDescription mp4 tid = Except.error DemuxError.configNotFound) := by
  constructor
  · intro box hbox
    unfold extractCodecDescription
    rw [h]
    dsimp only
    rw [findConfigBox_eq_findSome?, hbox]
  · intro hnone
    exact extractCodecDescription_error_of_no_config h hnone

/-- C8 witness: a track carrying a serialized `avcC` box yields the payload
after the 8-byte header; a track carrying none of the boxes fails. -/
theorem codec_description_first_box_witness :
    extractCodecDescription [trakWithAvcC] 1 = Except.ok [1, 2, 3] ∧
    extractCodecDescription [trakNoConfig] 1 = Except.error DemuxError.configNotFound :=
  ⟨(codec_description_first_box [trakWithAvcC] 1 trakWithAvcC rfl).1 avcBox rfl,
   (codec_description_first_box [trakNoConfig] 1 trakNoConfig rfl).2 (by decide)⟩

/-- C9: extracting a track type with no track in the loaded file resolves
immediately with an empty sample list, for every window and every oracle —
never an error. -/
theorem absent_track_resolves_empty (info : MP4Info) (tt : TrackType)
    (startTime : ℚ) (endTime : Option ℚ) (batches : List (List MP4Sample))
    (h : (tt = TrackType.audio ∧ info.audioTracks = []) ∨
         (tt = TrackType.video ∧ info.videoTracks = [])) :
    extractEncodedSegment info tt startTime endTime batches =
      ExtractOutcome.resolved [] := by
  rcases h with ⟨rfl, h⟩ | ⟨rfl, h⟩ <;>
    rw [extractEncodedSegment, h] <;> rfl

/-- C9 witness: requesting audio from a video-only container. -/
theorem absent_track_resolves_empty_witness :
    extractEncodedSegment infoVideoOnly TrackType.audio 0 (some 1) [[sampleAtOneSec]] =
      ExtractOutcome.resolved [] :=
  absent_track_resolves_empty infoVideoOnly TrackType.audio 0 (some 1)
    [[sampleAtOneSec]] (Or.inl ⟨rfl, rfl⟩)

/-- C10: on an instance whose `load()` has not completed successfully
(`mp4Data` still `null`), `getTracks`, `getVideoTrack`, `getAudioTrack`,
`extractSegment` and `getInfo` all throw an error stating that `load()` must
be called first. -/
theorem must_call_load_first (d : MP4Demuxer) (h : d.mp4Data = none) :
    d.getTracks = Except.error "MP4Demuxer: Must call load() before getTracks()" ∧
    d.getVideoTrack = Except.error "MP4Demuxer: Must call load() before getTracks()" ∧
    d.getAudioTrack = Except.error "MP4Demuxer: Must call load() before getTracks()" ∧
    (∀ tt startTime endTime batches,
      d.extractSegment tt startTime endTime batches =
        Except.error "MP4Demuxer: Must call load() before extractSegment()") ∧
    d.getInfo = Except.error "MP4Demuxer: Must call load() before getInfo()" := by
  have h1 : d.getTracks =
      Except.error "MP4Demuxer: Must call load() before getTracks()" := by
    unfold MP4Demuxer.getTracks
    rw [h]
  refine ⟨h1, ?_, ?_, ?_, ?_⟩
  · unfold MP4Demuxer.getVideoTrack
    rw [h1]
    rfl
  · unfold MP4Demuxer.getAudioTrack
    rw [h1]
    rfl
  · intro tt startTime endTime batches
    unfold MP4Demuxer.extractSegment
    rw [h]
  · unfold MP4Demuxer.getInfo
    rw [h]

/-- C10 witness: a freshly constructed demuxer (no `load()` yet). -/
theorem must_call_load_first_witness :
    (MP4Demuxer.mk none).getTracks =
      Except.error "MP4Demuxer: Must call load() before getTracks()" ∧
    (MP4Demuxer.mk none).getVideoTrack =
      Except.error "MP4Demuxer: Must call load() before getTracks()" ∧
    (MP4Demuxer.mk none).getAudioTrack =
      Except.error "MP4Demuxer: Must call load() before getTracks()" ∧
    (MP4Demuxer.mk none).extractSegment TrackType.video 0 none [] =
      Except.error "MP4Demuxer: Must call load() before extractSegment()" ∧
    (MP4Demuxer.mk none).getInfo =
      Except.error "MP4Demuxer: Must call load() before getInfo()" :=
  have h := must_call_load_first (MP4Demuxer.mk none) rfl
  ⟨h.1, h.2.1, h.2.2.1, h.2.2.2.1 TrackType.video 0 none [], h.2.2.2.2⟩

end WebcodecsUtils
